import Mathlib

/-!
# Terminal Roast: a shallow embedding of `src/extension.js`

The extension keeps three module-level variables (`isMuted`,
`isCurrentlyPlaying`, `roastButton`) and reacts to host events.  The module
variables and the observable host effects (spawned commands, status-bar
messages, console output, pending callbacks and timers) are collected in one
record `ExtState`; every JavaScript function becomes a Lean function from
`ExtState` to an `Outcome` (the state when the function stops, and the exception
it threw, if any).
-/

namespace TerminalRoast

/-! ## Host objects -/

/-- A status-bar item as handed out by `vscode.window.createStatusBarItem`. -/
structure StatusBarItem where
  alignment : String
  priority : Nat
  command : Option String
  text : String
  tooltip : String
  color : String
  visible : Bool
deriving DecidableEq, Repr

/-- A value returned by `Math.random()`: the double `mant / 2 ^ exp`. -/
structure JsRandom where
  mant : Nat
  exp : Nat
deriving DecidableEq, Repr

/-- The doubles in `[0, 1)`: at most 53 significant bits, a multiple of
`2 ^ (-1074)`, and below one. -/
def JsRandom.valid (r : JsRandom) : Prop :=
  r.mant < 2 ^ 53 ∧ r.mant < 2 ^ r.exp ∧ r.exp ≤ 1074

instance (r : JsRandom) : Decidable r.valid := by
  unfold JsRandom.valid; infer_instance

/-- What the surrounding system answers when the extension asks: the
`context.extensionPath`, `process.platform`, `path.join`, `fs.existsSync`,
`fs.readdirSync` (which may throw) and the next `Math.random()`. -/
structure Host where
  extensionPath : String
  platform : String
  pathJoin : String → String → String
  existsSync : String → Bool
  readdirSync : String → Except String (List String)
  random : JsRandom

/-- The module variables of `extension.js` together with the effects the
extension has had on its host. -/
structure ExtState where
  isMuted : Bool
  isCurrentlyPlaying : Bool
  roastButton : Option StatusBarItem
  consoleLog : List String
  consoleError : List String
  statusBarMessages : List (String × Nat)
  registeredCommands : List String
  listenerRegistered : Bool
  subscriptions : List String
  execLog : List String
  inFlight : Nat
  pendingTimers : Nat
deriving DecidableEq, Repr

/-- The state in which a JavaScript call stopped and the exception it threw. -/
structure Outcome where
  state : ExtState
  thrown : Option String
deriving DecidableEq, Repr

/-! ## JavaScript built-ins -/

/-- `String.prototype.endsWith`. -/
def endsWith (s suffix : String) : Bool :=
  suffix.data.isSuffixOf s.data

/-- Number of binary digits to drop so that `n` fits in 53 bits. -/
def excessBits : Nat → Nat → Nat
  | 0, _ => 0
  | fuel + 1, n => if n < 2 ^ 53 then 0 else excessBits fuel (n / 2) + 1

/-- Round a natural number to 53 significant bits, ties to even. -/
def roundSig53 (n : Nat) : Nat :=
  let s := excessBits n n
  let q := n / 2 ^ s
  let rest := n % 2 ^ s
  if 2 * rest < 2 ^ s then q * 2 ^ s
  else if 2 ^ s < 2 * rest then (q + 1) * 2 ^ s
  else if q % 2 = 0 then q * 2 ^ s
  else (q + 1) * 2 ^ s

/-- `Math.floor(r * n)` for a double `r = mant / 2 ^ exp` and an integer `n`
below `2 ^ 53`: the exact product `mant * n / 2 ^ exp` is rounded to the nearest
double and then floored. -/
def mathFloorMul (r : JsRandom) (n : Nat) : Nat :=
  roundSig53 (r.mant * n) / 2 ^ r.exp

/-! ## The extension -/

/-- The module variables right after `extension.js` has been loaded
(lines 10-12), with a host that has not been touched yet. -/
def moduleLoad : ExtState where
  isMuted := false
  isCurrentlyPlaying := false
  roastButton := none
  consoleLog := []
  consoleError := []
  statusBarMessages := []
  registeredCommands := []
  listenerRegistered := false
  subscriptions := []
  execLog := []
  inFlight := 0
  pendingTimers := 0

/-- `updateUIAppearance` (lines 66-76); writing a property of an undefined
`roastButton` throws. -/
def updateUIAppearance (s : ExtState) : Outcome :=
  match s.roastButton with
  | none => ⟨s, some "TypeError: Cannot set properties of undefined"⟩
  | some b =>
    if s.isMuted then
      ⟨{ s with roastButton := some { b with
            text := "$(mute) Muted"
            tooltip := "Click to allow roasting sounds again"
            color := "#aaaaaa" } }, none⟩
    else
      ⟨{ s with roastButton := some { b with
            text := "$(megaphone) Roasting"
            tooltip := "Click to silence the roasts"
            color := "#ffcc00" } }, none⟩

/-- The handler of the command `terminal-roast.toggleMute` (lines 48-55). -/
def toggleMute (s : ExtState) : Outcome :=
  let s1 := { s with isMuted := !s.isMuted }
  let o := updateUIAppearance s1
  match o.thrown with
  | some e => ⟨o.state, some e⟩
  | none =>
    let status := if o.state.isMuted then "$(mute) Muted" else "$(megaphone) Active"
    ⟨{ o.state with
        statusBarMessages := o.state.statusBarMessages ++ [("Terminal Roast: " ++ status, 2000)] },
      none⟩

/-- `createStatusBarInterface` (lines 42-60). -/
def createStatusBarInterface (s : ExtState) : Outcome :=
  let item : StatusBarItem :=
    { alignment := "Right", priority := 100, command := none,
      text := "", tooltip := "", color := "", visible := false }
  let s1 := { s with roastButton := some { item with command := some "terminal-roast.toggleMute" } }
  let s2 := { s1 with registeredCommands := s1.registeredCommands ++ ["terminal-roast.toggleMute"] }
  let o := updateUIAppearance s2
  match o.thrown with
  | some e => ⟨o.state, some e⟩
  | none =>
    let s3 := { o.state with roastButton := o.state.roastButton.map (fun (b : StatusBarItem) => { b with visible := true }) }
    ⟨{ s3 with subscriptions := s3.subscriptions ++ ["roastButton", "toggleAction"] }, none⟩

/-- `activate` (lines 18-36). -/
def activate (s : ExtState) : Outcome :=
  let s1 := { s with consoleLog := s.consoleLog ++ ["Terminal Roast: Monitoring for failures... 🔥"] }
  let o := createStatusBarInterface s1
  match o.thrown with
  | some e => ⟨o.state, some e⟩
  | none =>
    let s2 := { o.state with listenerRegistered := true }
    ⟨{ s2 with subscriptions := s2.subscriptions ++ ["terminalListener"] }, none⟩

/-- `child_process.exec(command, callback)`: the command is spawned and its
callback is outstanding. -/
def exec (command : String) (s : ExtState) : ExtState :=
  { s with execLog := s.execLog ++ [command], inFlight := s.inFlight + 1 }

/-- `triggerRandomRoast` (lines 82-122). -/
def triggerRandomRoast (h : Host) (s : ExtState) : Outcome :=
  if s.isCurrentlyPlaying then ⟨s, none⟩
  else
    let mediaFolder := h.pathJoin h.extensionPath "media"
    if !h.existsSync mediaFolder then ⟨s, none⟩
    else
      match h.readdirSync mediaFolder with
      | .error e => ⟨s, some e⟩
      | .ok entries =>
        let soundFiles := entries.filter (fun file => endsWith file ".mp3")
        if soundFiles.length = 0 then ⟨s, none⟩
        else
          match soundFiles[mathFloorMul h.random soundFiles.length]? with
          | none => ⟨s, some "TypeError: The \"path\" argument must be of type string"⟩
          | some randomSound =>
            let soundPath := h.pathJoin mediaFolder randomSound
            let audioCommand :=
              if h.platform = "win32" then
                "powershell -c \"Add-Type -AssemblyName PresentationCore; $m = New-Object System.Windows.Media.MediaPlayer; $m.Open('" ++ soundPath ++ "'); $m.Play(); Start-Sleep -s 5\""
              else if h.platform = "darwin" then
                "afplay \"" ++ soundPath ++ "\""
              else
                "aplay \"" ++ soundPath ++ "\""
            let s1 := { s with isCurrentlyPlaying := true }
            let s2 := { s1 with
              statusBarMessages := s1.statusBarMessages ++ [("💀 Roasted by " ++ randomSound, 4000)] }
            ⟨exec audioCommand s2, none⟩

/-- The listener passed to `onDidEndTerminalShellExecution` (lines 26-32);
`exitCode` is `none` when `event.exitCode` is `undefined`. -/
def onDidEndTerminalShellExecution (h : Host) (exitCode : Option Int) (s : ExtState) : Outcome :=
  let commandFailed := exitCode ≠ none ∧ exitCode ≠ some 0
  if commandFailed ∧ s.isMuted = false then triggerRandomRoast h s
  else ⟨s, none⟩

/-- The callback passed to `exec` (lines 114-121): log the error, if any, and
start the 3000 ms timer. -/
def execCallback (error : Option String) (s : ExtState) : Outcome :=
  let s1 :=
    match error with
    | some e => { s with consoleError := s.consoleError ++ ["Audio Player Error: " ++ e] }
    | none => s
  ⟨{ s1 with pendingTimers := s1.pendingTimers + 1 }, none⟩

/-- The callback passed to `setTimeout` (lines 118-120). -/
def cooldownTimeout (s : ExtState) : ExtState :=
  { s with isCurrentlyPlaying := false }

/-! ## The event loop -/

/-- What the host can deliver to the activated extension. -/
inductive Event where
  | terminalEnd (h : Host) (exitCode : Option Int)
  | toggleClick
  | processDone (error : Option String)
  | timerFire

/-- One turn of the event loop.  A handler runs to completion; an exception
it throws is caught by the host, the module variables keep what was written
before the throw.  An event that has no receiver (no listener, no spawned
process, no pending timer) changes nothing. -/
def step (s : ExtState) : Event → ExtState
  | .terminalEnd h exitCode =>
    if s.listenerRegistered then (onDidEndTerminalShellExecution h exitCode s).state else s
  | .toggleClick =>
    if "terminal-roast.toggleMute" ∈ s.registeredCommands then (toggleMute s).state else s
  | .processDone error =>
    if 0 < s.inFlight then (execCallback error { s with inFlight := s.inFlight - 1 }).state else s
  | .timerFire =>
    if 0 < s.pendingTimers then cooldownTimeout { s with pendingTimers := s.pendingTimers - 1 } else s

/-- Deliver a sequence of events in order. -/
def run (s : ExtState) (events : List Event) : ExtState :=
  events.foldl step s

/-- The state in which events start to arrive: the module has been loaded and
`activate` has run. -/
def started : ExtState :=
  (activate moduleLoad).state

/-- A state the activated extension can be in. -/
def Reachable (s : ExtState) : Prop :=
  ∃ events : List Event, run started events = s

/-! ## Sample hosts -/

/-- A Linux host whose media folder lists two sounds and a text file; the
random number is `0`. -/
def linuxHost : Host where
  extensionPath := "/ext"
  platform := "linux"
  pathJoin := fun a b => a ++ "/" ++ b
  existsSync := fun p => p == "/ext/media"
  readdirSync := fun p =>
    if p = "/ext/media" then .ok ["a.mp3", "b.mp3", "notes.txt"] else .error "ENOENT"
  random := ⟨0, 53⟩

/-- A host without a media folder. -/
def noMediaHost : Host :=
  { linuxHost with
    existsSync := fun _ => false
    readdirSync := fun _ => .error "ENOENT" }

/-- A host whose media folder holds no file ending in `.mp3`. -/
def upperCaseHost : Host :=
  { linuxHost with readdirSync := fun _ => .ok ["A.MP3", "mp3", "notes.txt"] }

/-! ## Arithmetic of the random index -/

theorem excessBits_div_lt (fuel n : Nat) (h : n ≤ fuel) :
    n / 2 ^ excessBits fuel n < 2 ^ 53 := by
  induction fuel generalizing n with
  | zero =>
    have h0 : n = 0 := by omega
    subst h0
    simp [excessBits]
  | succ k ih =>
    simp only [excessBits]
    split_ifs with hlt
    · simpa using hlt
    · have h2 : n / 2 ≤ k := by omega
      have h3 := ih (n / 2) h2
      rw [pow_succ', ← Nat.div_div_eq_div_mul]
      exact h3

theorem excessBits_le_div (fuel n : Nat) (h : n ≤ fuel) (hpos : 0 < excessBits fuel n) :
    2 ^ 52 ≤ n / 2 ^ excessBits fuel n := by
  induction fuel generalizing n with
  | zero => simp [excessBits] at hpos
  | succ k ih =>
    simp only [excessBits] at hpos ⊢
    split_ifs at hpos ⊢ with hlt
    · omega
    · have h2 : n / 2 ≤ k := by omega
      rw [show 2 ^ (excessBits k (n / 2) + 1) = 2 * 2 ^ excessBits k (n / 2) from pow_succ' _ _,
        ← Nat.div_div_eq_div_mul]
      rcases Nat.eq_zero_or_pos (excessBits k (n / 2)) with h0 | h0
      · rw [h0]
        simp only [pow_zero, Nat.div_one]
        have h53 : (2 : Nat) ^ 53 = 2 * 2 ^ 52 := by norm_num
        omega
      · exact ih (n / 2) h2 h0

theorem unit_gap (m e : Nat) (hm : m < 2 ^ 53) (hlt : m < 2 ^ e) :
    m * 2 ^ 53 + 2 ^ e ≤ 2 ^ e * 2 ^ 53 := by
  rcases Nat.lt_or_ge 53 e with he | he
  · have hX : 2 ^ 54 ≤ 2 ^ e := Nat.pow_le_pow_right (by norm_num) he
    generalize 2 ^ e = X at *
    norm_num at *
    omega
  · have hX : 2 ^ e ≤ 2 ^ 53 := Nat.pow_le_pow_right (by norm_num) he
    generalize 2 ^ e = X at *
    norm_num at *
    omega

theorem roundSig53_mul_lt (m e n : Nat) (hm : m < 2 ^ 53) (hlt : m < 2 ^ e)
    (hn : 0 < n) (hn53 : n < 2 ^ 53) : roundSig53 (m * n) < n * 2 ^ e := by
  have hgap := unit_gap m e hm hlt
  have hF1 : m * n * 2 ^ 53 + n * 2 ^ e ≤ n * 2 ^ e * 2 ^ 53 := by
    have h1 := Nat.mul_le_mul_left n hgap
    calc m * n * 2 ^ 53 + n * 2 ^ e = n * (m * 2 ^ 53 + 2 ^ e) := by ring
      _ ≤ n * (2 ^ e * 2 ^ 53) := h1
      _ = n * 2 ^ e * 2 ^ 53 := by ring
  have hXpos : 0 < 2 ^ e := Nat.two_pow_pos e
  have hTpos : 0 < n * 2 ^ e := Nat.mul_pos hn hXpos
  have hnX : n * 2 ^ e < 2 ^ 53 * 2 ^ e := Nat.mul_lt_mul_of_pos_right hn53 hXpos
  generalize hN : m * n = N at *
  have hNT : N < n * 2 ^ e := by
    norm_num at hF1
    omega
  have hA := excessBits_div_lt N N le_rfl
  have hB := excessBits_le_div N N le_rfl
  simp only [roundSig53]
  generalize excessBits N N = s at *
  have hPpos : 0 < 2 ^ s := Nat.two_pow_pos s
  have hdiv := Nat.div_add_mod N (2 ^ s)
  have hrest := Nat.mod_lt N hPpos
  rcases Nat.eq_zero_or_pos s with hs | hs
  · subst hs
    simp [Nat.mod_one]
    exact hNT
  · have hq := hB hs
    have hqP : 2 ^ 52 * 2 ^ s ≤ N / 2 ^ s * 2 ^ s := Nat.mul_le_mul_right _ hq
    have hse : s ≤ e := by
      by_contra hcon
      have h1 : e + 1 ≤ s := by omega
      have h2 : 2 ^ (e + 1) ≤ 2 ^ s := Nat.pow_le_pow_right (by norm_num) h1
      rw [pow_succ] at h2
      have hcomm : 2 ^ s * (N / 2 ^ s) = N / 2 ^ s * 2 ^ s := Nat.mul_comm _ _
      generalize 2 ^ s = P at *
      generalize 2 ^ e = X at *
      generalize N / P * P = QP at *
      generalize n * X = T at *
      norm_num at *
      omega
    have hsplit : 2 ^ e = 2 ^ (e - s) * 2 ^ s := by
      rw [← pow_add]
      congr 1
      omega
    have hT : n * 2 ^ e = n * 2 ^ (e - s) * 2 ^ s := by
      rw [hsplit, Nat.mul_assoc]
    have hcomm : 2 ^ s * (N / 2 ^ s) = N / 2 ^ s * 2 ^ s := Nat.mul_comm _ _
    have htq : N / 2 ^ s < n * 2 ^ (e - s) := by
      apply Nat.lt_of_mul_lt_mul_right (a := 2 ^ s)
      rw [← hT]
      omega
    have hle : (N / 2 ^ s + 1) * 2 ^ s ≤ n * 2 ^ (e - s) * 2 ^ s :=
      Nat.mul_le_mul_right _ htq
    rw [← hT] at hle
    have hexp : (N / 2 ^ s + 1) * 2 ^ s = N / 2 ^ s * 2 ^ s + 2 ^ s := by ring
    rw [hexp] at hle ⊢
    generalize 2 ^ s = P at *
    generalize N / P * P = QP at *
    generalize N % P = rest at *
    generalize n * 2 ^ e = T at *
    norm_num at hF1 hqP
    split_ifs <;> omega

theorem mathFloorMul_lt (r : JsRandom) (n : Nat) (hr : r.valid) (hn : 0 < n)
    (hn53 : n < 2 ^ 53) : mathFloorMul r n < n := by
  unfold mathFloorMul
  rw [Nat.div_lt_iff_lt_mul (Nat.two_pow_pos _)]
  exact roundSig53_mul_lt r.mant r.exp n hr.1 hr.2.1 hn hn53

/-! ## The terminal listener -/

/-- C1: when the exit code is absent or zero, or the extension is muted, the
terminal-end listener returns without throwing and leaves the whole state as it
was: nothing is spawned, and the flags and the button keep their values.  The
same holds for the event delivered through the event loop. -/
theorem C1_listener_ignores_success_and_muted (h : Host) (c : Option Int) (s : ExtState)
    (hc : c = none ∨ c = some 0 ∨ s.isMuted = true) :
    onDidEndTerminalShellExecution h c s = ⟨s, none⟩ ∧ step s (.terminalEnd h c) = s := by
  have key : onDidEndTerminalShellExecution h c s = ⟨s, none⟩ := by
    unfold onDidEndTerminalShellExecution
    rcases hc with hc | hc | hc
    · subst hc; simp
    · subst hc; simp
    · simp [hc]
  refine ⟨key, ?_⟩
  simp only [step, key]
  split_ifs <;> rfl

theorem C1_listener_ignores_success_and_muted_witness :
    ((some 0 : Option Int) = none ∨ (some 0 : Option Int) = some 0 ∨ started.isMuted = true) ∧
    (onDidEndTerminalShellExecution linuxHost (some 0) started = ⟨started, none⟩ ∧
      step started (.terminalEnd linuxHost (some 0)) = started) :=
  ⟨Or.inr (Or.inl rfl),
    C1_listener_ignores_success_and_muted linuxHost (some 0) started (Or.inr (Or.inl rfl))⟩

theorem triggerRandomRoast_playing (h : Host) (s : ExtState)
    (hp : s.isCurrentlyPlaying = true) : triggerRandomRoast h s = ⟨s, none⟩ := by
  simp [triggerRandomRoast, hp]

theorem listener_playing (h : Host) (c : Option Int) (s : ExtState)
    (hp : s.isCurrentlyPlaying = true) :
    onDidEndTerminalShellExecution h c s = ⟨s, none⟩ := by
  simp only [onDidEndTerminalShellExecution]
  split_ifs
  · exact triggerRandomRoast_playing h s hp
  · rfl

/-- C3: while `isCurrentlyPlaying` is true, a terminal-end event with any exit
code, any mute flag and any media folder returns without throwing and leaves
the state as it was (no spawn, flags unchanged); hence any sequence of
terminal-end events delivered in such a state leaves the state, and with it the
list of spawned commands, unchanged. -/
theorem C3_no_spawn_while_playing (s : ExtState) (hp : s.isCurrentlyPlaying = true) :
    (∀ (h : Host) (c : Option Int), onDidEndTerminalShellExecution h c s = ⟨s, none⟩) ∧
    (∀ evs : List (Host × Option Int),
      run s (evs.map (fun e => Event.terminalEnd e.1 e.2)) = s) := by
  refine ⟨fun h c => listener_playing h c s hp, ?_⟩
  intro evs
  induction evs with
  | nil => rfl
  | cons e rest ih =>
    have hstep : step s (Event.terminalEnd e.1 e.2) = s := by
      simp only [step, listener_playing e.1 e.2 s hp]
      split_ifs <;> rfl
    simp only [run, List.map_cons, List.foldl_cons, hstep] at ih ⊢
    exact ih

theorem C3_no_spawn_while_playing_witness :
    (run started [.terminalEnd linuxHost (some 1)]).isCurrentlyPlaying = true ∧
    (run started [.terminalEnd linuxHost (some 1)]).execLog = ["aplay \"/ext/media/a.mp3\""] ∧
    ((∀ (h : Host) (c : Option Int),
        onDidEndTerminalShellExecution h c (run started [.terminalEnd linuxHost (some 1)]) =
          ⟨run started [.terminalEnd linuxHost (some 1)], none⟩) ∧
      (∀ evs : List (Host × Option Int),
        run (run started [.terminalEnd linuxHost (some 1)])
            (evs.map (fun e => Event.terminalEnd e.1 e.2)) =
          run started [.terminalEnd linuxHost (some 1)])) :=
  ⟨by decide, by decide,
    C3_no_spawn_while_playing (run started [.terminalEnd linuxHost (some 1)]) (by decide)⟩

/-- C6: if `existsSync` says the media folder is missing, or `readdirSync`
returns a listing in which no name ends with `.mp3` (the comparison is
case-sensitive), then `triggerRandomRoast` returns without throwing and leaves
the state as it was, whatever the state; so does the listener for every event,
in particular for a failure event with the mute flag off: no process is spawned
and `isCurrentlyPlaying` keeps its value. -/
theorem C6_no_media_is_silent (h : Host) (c : Option Int) (s : ExtState)
    (hdir : h.existsSync (h.pathJoin h.extensionPath "media") = false ∨
      ∃ entries, h.readdirSync (h.pathJoin h.extensionPath "media") = .ok entries ∧
        ∀ file ∈ entries, endsWith file ".mp3" = false) :
    triggerRandomRoast h s = ⟨s, none⟩ ∧
    onDidEndTerminalShellExecution h c s = ⟨s, none⟩ := by
  have key : triggerRandomRoast h s = ⟨s, none⟩ := by
    unfold triggerRandomRoast
    rcases hdir with hmiss | ⟨entries, hread, hnone⟩
    · simp [hmiss]
    · have hfilter : entries.filter (fun file => endsWith file ".mp3") = [] := by
        rw [List.filter_eq_nil_iff]
        intro file hfile
        simp [hnone file hfile]
      simp [hread, hfilter]
  refine ⟨key, ?_⟩
  simp only [onDidEndTerminalShellExecution]
  split_ifs
  · exact key
  · rfl

theorem C6_no_media_is_silent_witness :
    (started.isMuted = false ∧ started.isCurrentlyPlaying = false ∧
      ∃ entries,
        upperCaseHost.readdirSync (upperCaseHost.pathJoin upperCaseHost.extensionPath "media") =
          .ok entries ∧ ∀ file ∈ entries, endsWith file ".mp3" = false) ∧
    (triggerRandomRoast upperCaseHost started = ⟨started, none⟩ ∧
      onDidEndTerminalShellExecution upperCaseHost (some 1) started = ⟨started, none⟩) :=
  ⟨⟨by decide, by decide, ["A.MP3", "mp3", "notes.txt"], rfl, by decide⟩,
    C6_no_media_is_silent upperCaseHost (some 1) started
      (Or.inr ⟨["A.MP3", "mp3", "notes.txt"], rfl, by decide⟩)⟩

/-! ## The mute toggle and activation -/

/-- C7: in a state that has its button, the toggle handler returns without
throwing, negates `isMuted`, writes text, tooltip and color of the button from
the new value alone (unmuted: megaphone, gold; muted: mute, grey), appends the
2000 ms status message for the new value, and changes nothing else. -/
theorem C7_toggle_flips_and_redraws (s : ExtState) (b : StatusBarItem)
    (hb : s.roastButton = some b) :
    toggleMute s =
      ⟨{ s with
          isMuted := !s.isMuted
          roastButton := some { b with
            text := if (!s.isMuted) = false then "$(megaphone) Roasting" else "$(mute) Muted"
            color := if (!s.isMuted) = false then "#ffcc00" else "#aaaaaa"
            tooltip :=
              if (!s.isMuted) = false then "Click to silence the roasts"
              else "Click to allow roasting sounds again" }
          statusBarMessages := s.statusBarMessages ++
            [(if (!s.isMuted) = false then "Terminal Roast: $(megaphone) Active"
              else "Terminal Roast: $(mute) Muted", 2000)] },
        none⟩ := by
  cases hmute : s.isMuted <;> simp [toggleMute, updateUIAppearance, hb, hmute]

theorem C7_toggle_flips_and_redraws_witness :
    (started.roastButton = some
        { alignment := "Right", priority := 100, command := some "terminal-roast.toggleMute",
          text := "$(megaphone) Roasting", tooltip := "Click to silence the roasts",
          color := "#ffcc00", visible := true }) ∧
    (toggleMute started).state.isMuted = true ∧
    (toggleMute started).state.roastButton = some
        { alignment := "Right", priority := 100, command := some "terminal-roast.toggleMute",
          text := "$(mute) Muted", tooltip := "Click to allow roasting sounds again",
          color := "#aaaaaa", visible := true } ∧
    (toggleMute started).state.statusBarMessages = [("Terminal Roast: $(mute) Muted", 2000)] := by
  have hb : started.roastButton = some
        { alignment := "Right", priority := 100, command := some "terminal-roast.toggleMute",
          text := "$(megaphone) Roasting", tooltip := "Click to silence the roasts",
          color := "#ffcc00", visible := true } := by decide
  have h := C7_toggle_flips_and_redraws started _ hb
  refine ⟨hb, ?_, ?_, ?_⟩
  · rw [h]; decide
  · rw [h]; decide
  · rw [h]; decide

/-- C10: the `exec` callback never throws and never writes `isMuted` or
`isCurrentlyPlaying`; called with an error it yields the state of the call
without error plus one line on the error console, so it starts the cooldown
timer all the same.  For a process spawned by `exec`, completion with an error
followed by the firing of the timer ends with `isCurrentlyPlaying = false`. -/
theorem C10_player_error_is_harmless (s : ExtState) (e command : String) :
    (execCallback (some e) s).thrown = none ∧
    (execCallback (some e) s).state.isMuted = s.isMuted ∧
    (execCallback (some e) s).state.isCurrentlyPlaying = s.isCurrentlyPlaying ∧
    (execCallback (some e) s).state =
      { (execCallback none s).state with
        consoleError := s.consoleError ++ ["Audio Player Error: " ++ e] } ∧
    (execCallback (some e) s).state.pendingTimers = s.pendingTimers + 1 ∧
    step (exec command s) (.processDone (some e)) =
      { step (exec command s) (.processDone none) with
        consoleError := s.consoleError ++ ["Audio Player Error: " ++ e] } ∧
    (run (exec command s) [.processDone (some e), .timerFire]).isCurrentlyPlaying = false := by
  simp [execCallback, step, cooldownTimeout, run, exec]

/-! ## Spawning the player -/

theorem triggerRandomRoast_spawns (h : Host) (s : ExtState) (entries L : List String)
    (hp : s.isCurrentlyPlaying = false)
    (hex : h.existsSync (h.pathJoin h.extensionPath "media") = true)
    (hread : h.readdirSync (h.pathJoin h.extensionPath "media") = .ok entries)
    (hL : entries.filter (fun file => endsWith file ".mp3") = L)
    (hne : L ≠ []) (hlen : L.length < 2 ^ 53) (hr : h.random.valid) :
    ∃ name, L[mathFloorMul h.random L.length]? = some name ∧
      triggerRandomRoast h s =
        ⟨{ s with
            isCurrentlyPlaying := true
            statusBarMessages := s.statusBarMessages ++ [("💀 Roasted by " ++ name, 4000)]
            execLog := s.execLog ++
              [if h.platform = "win32" then
                "powershell -c \"Add-Type -AssemblyName PresentationCore; $m = New-Object System.Windows.Media.MediaPlayer; $m.Open('" ++ h.pathJoin (h.pathJoin h.extensionPath "media") name ++ "'); $m.Play(); Start-Sleep -s 5\""
              else if h.platform = "darwin" then
                "afplay \"" ++ h.pathJoin (h.pathJoin h.extensionPath "media") name ++ "\""
              else
                "aplay \"" ++ h.pathJoin (h.pathJoin h.extensionPath "media") name ++ "\""]
            inFlight := s.inFlight + 1 },
          none⟩ := by
  have hpos : 0 < L.length := List.length_pos.mpr hne
  have hidx : mathFloorMul h.random L.length < L.length :=
    mathFloorMul_lt h.random L.length hr hpos hlen
  refine ⟨L[mathFloorMul h.random L.length], List.getElem?_eq_getElem hidx, ?_⟩
  have hlen0 : L.length ≠ 0 := by omega
  simp only [triggerRandomRoast, hp, hex, hread, hL, List.getElem?_eq_getElem hidx, exec]
  simp [hlen0]

theorem listener_failure (h : Host) (c : Int) (s : ExtState) (hc : c ≠ 0)
    (hm : s.isMuted = false) :
    onDidEndTerminalShellExecution h (some c) s = triggerRandomRoast h s := by
  simp [onDidEndTerminalShellExecution, hc, hm]

/-- C2, as stated, fails: a failure event (exit code 1) in the unmuted, idle
state right after activation spawns nothing when the media folder is missing;
the list of spawned commands stays empty. -/
theorem C2_counterexample_no_media :
    (1 : Int) ≠ 0 ∧ started.isMuted = false ∧ started.isCurrentlyPlaying = false ∧
    (onDidEndTerminalShellExecution noMediaHost (some 1) started).state.execLog = [] ∧
    (onDidEndTerminalShellExecution noMediaHost (some 1) started).state.inFlight = 0 ∧
    (onDidEndTerminalShellExecution noMediaHost (some 1) started).state.execLog.length ≠
      started.execLog.length + 1 := by
  decide

/-- C2, amended: for every non-zero exit code, with the mute flag off and
`isCurrentlyPlaying` false, if the media folder exists and its listing has at
least one name ending in `.mp3` (fewer than `2 ^ 53` of them, the random number
being a double in `[0, 1)`), the listener returns without throwing and spawns
exactly one command: the list of spawned commands grows by one, one more
callback is outstanding and `isCurrentlyPlaying` is set. -/
theorem C2_failure_spawns_once (h : Host) (c : Int) (s : ExtState) (entries L : List String)
    (hc : c ≠ 0) (hm : s.isMuted = false) (hp : s.isCurrentlyPlaying = false)
    (hex : h.existsSync (h.pathJoin h.extensionPath "media") = true)
    (hread : h.readdirSync (h.pathJoin h.extensionPath "media") = .ok entries)
    (hL : entries.filter (fun file => endsWith file ".mp3") = L)
    (hne : L ≠ []) (hlen : L.length < 2 ^ 53) (hr : h.random.valid) :
    (onDidEndTerminalShellExecution h (some c) s).thrown = none ∧
    (∃ command,
      (onDidEndTerminalShellExecution h (some c) s).state.execLog = s.execLog ++ [command]) ∧
    (onDidEndTerminalShellExecution h (some c) s).state.execLog.length = s.execLog.length + 1 ∧
    (onDidEndTerminalShellExecution h (some c) s).state.inFlight = s.inFlight + 1 ∧
    (onDidEndTerminalShellExecution h (some c) s).state.isCurrentlyPlaying = true := by
  obtain ⟨name, -, hrun⟩ := triggerRandomRoast_spawns h s entries L hp hex hread hL hne hlen hr
  rw [listener_failure h c s hc hm, hrun]
  simp

theorem C2_failure_spawns_once_witness :
    ((7 : Int) ≠ 0 ∧ started.isMuted = false ∧ started.isCurrentlyPlaying = false ∧
      linuxHost.random.valid) ∧
    ((onDidEndTerminalShellExecution linuxHost (some 7) started).thrown = none ∧
      (∃ command,
        (onDidEndTerminalShellExecution linuxHost (some 7) started).state.execLog =
          started.execLog ++ [command]) ∧
      (onDidEndTerminalShellExecution linuxHost (some 7) started).state.execLog.length =
        started.execLog.length + 1 ∧
      (onDidEndTerminalShellExecution linuxHost (some 7) started).state.inFlight =
        started.inFlight + 1 ∧
      (onDidEndTerminalShellExecution linuxHost (some 7) started).state.isCurrentlyPlaying =
        true) :=
  ⟨⟨by decide, by decide, by decide, by decide⟩,
    C2_failure_spawns_once linuxHost 7 started ["a.mp3", "b.mp3", "notes.txt"] ["a.mp3", "b.mp3"]
      (by decide) (by decide) (by decide) rfl rfl (by decide) (by decide)
      (by decide) (by decide)⟩

/-- C9: for a failure event with the mute flag off and `isCurrentlyPlaying`
false, a media folder whose names ending in `.mp3` form the non-empty list `L`
(in listing order), and a random double in `[0, 1)`: the index
`Math.floor(Math.random() * L.length)` is below `L.length`, so a name is
selected, and the listener spawns exactly one command, built from
`join(join(extensionPath, "media"), name)` by the PowerShell template on
`win32`, `afplay` on `darwin` and `aplay` on every other platform. -/
theorem C9_spawned_command (h : Host) (c : Int) (s : ExtState) (entries L : List String)
    (hc : c ≠ 0) (hm : s.isMuted = false) (hp : s.isCurrentlyPlaying = false)
    (hex : h.existsSync (h.pathJoin h.extensionPath "media") = true)
    (hread : h.readdirSync (h.pathJoin h.extensionPath "media") = .ok entries)
    (hL : entries.filter (fun file => endsWith file ".mp3") = L)
    (hne : L ≠ []) (hlen : L.length < 2 ^ 53) (hr : h.random.valid) :
    mathFloorMul h.random L.length < L.length ∧
    ∃ name, L[mathFloorMul h.random L.length]? = some name ∧
      (onDidEndTerminalShellExecution h (some c) s).thrown = none ∧
      (onDidEndTerminalShellExecution h (some c) s).state.execLog = s.execLog ++
        [if h.platform = "win32" then
          "powershell -c \"Add-Type -AssemblyName PresentationCore; $m = New-Object System.Windows.Media.MediaPlayer; $m.Open('" ++ h.pathJoin (h.pathJoin h.extensionPath "media") name ++ "'); $m.Play(); Start-Sleep -s 5\""
        else if h.platform = "darwin" then
          "afplay \"" ++ h.pathJoin (h.pathJoin h.extensionPath "media") name ++ "\""
        else
          "aplay \"" ++ h.pathJoin (h.pathJoin h.extensionPath "media") name ++ "\""] := by
  refine ⟨mathFloorMul_lt h.random L.length hr (List.length_pos.mpr hne) hlen, ?_⟩
  obtain ⟨name, hname, hrun⟩ :=
    triggerRandomRoast_spawns h s entries L hp hex hread hL hne hlen hr
  refine ⟨name, hname, ?_⟩
  rw [listener_failure h c s hc hm, hrun]
  simp

theorem C9_spawned_command_witness :
    (mathFloorMul linuxHost.random 2 = 0 ∧
      (onDidEndTerminalShellExecution linuxHost (some 1) started).state.execLog =
        ["aplay \"/ext/media/a.mp3\""] ∧
      (onDidEndTerminalShellExecution { linuxHost with platform := "darwin" } (some 1)
          started).state.execLog = ["afplay \"/ext/media/a.mp3\""] ∧
      (onDidEndTerminalShellExecution { linuxHost with platform := "win32" } (some 1)
          started).state.execLog =
        ["powershell -c \"Add-Type -AssemblyName PresentationCore; $m = New-Object System.Windows.Media.MediaPlayer; $m.Open('/ext/media/a.mp3'); $m.Play(); Start-Sleep -s 5\""] ∧
      (onDidEndTerminalShellExecution { linuxHost with random := ⟨2 ^ 53 - 1, 53⟩ } (some 1)
          started).state.execLog = ["aplay \"/ext/media/b.mp3\""]) ∧
    (mathFloorMul linuxHost.random ["a.mp3", "b.mp3"].length < ["a.mp3", "b.mp3"].length ∧
      ∃ name, ["a.mp3", "b.mp3"][mathFloorMul linuxHost.random ["a.mp3", "b.mp3"].length]? =
          some name ∧
        (onDidEndTerminalShellExecution linuxHost (some 1) started).thrown = none ∧
        (onDidEndTerminalShellExecution linuxHost (some 1) started).state.execLog =
          started.execLog ++
            [if linuxHost.platform = "win32" then
              "powershell -c \"Add-Type -AssemblyName PresentationCore; $m = New-Object System.Windows.Media.MediaPlayer; $m.Open('" ++ linuxHost.pathJoin (linuxHost.pathJoin linuxHost.extensionPath "media") name ++ "'); $m.Play(); Start-Sleep -s 5\""
            else if linuxHost.platform = "darwin" then
              "afplay \"" ++ linuxHost.pathJoin (linuxHost.pathJoin linuxHost.extensionPath "media") name ++ "\""
            else
              "aplay \"" ++ linuxHost.pathJoin (linuxHost.pathJoin linuxHost.extensionPath "media") name ++ "\""]) :=
  ⟨⟨by decide, by decide, by decide, rfl, by decide⟩,
    C9_spawned_command linuxHost 1 started ["a.mp3", "b.mp3", "notes.txt"] ["a.mp3", "b.mp3"]
      (by decide) (by decide) (by decide) rfl rfl (by decide) (by decide)
      (by decide) (by decide)⟩

/-! ## Activation -/

/-- C8: the state in which the extension starts is fixed by the module
initialiser (`isMuted = false`, line 10) followed by `activate`; nothing an
earlier session did enters it, although such a session may have ended muted
(one toggle click gives `isMuted = true`).  After `activate` has run, without
an exception, `isMuted` is false and the visible button shows the Active
appearance (megaphone text, gold color).  A terminal failure right after
activation is not silenced: for every host the listener hands every event with
a present, non-zero exit code to `triggerRandomRoast`, and with the sample
media folder a player is spawned. -/
theorem C8_activation_starts_unmuted :
    moduleLoad.isMuted = false ∧
    (activate moduleLoad).thrown = none ∧
    started.isMuted = false ∧
    started.isCurrentlyPlaying = false ∧
    started.roastButton = some
      { alignment := "Right", priority := 100, command := some "terminal-roast.toggleMute",
        text := "$(megaphone) Roasting", tooltip := "Click to silence the roasts",
        color := "#ffcc00", visible := true } ∧
    (∀ (h : Host) (c : Option Int),
      onDidEndTerminalShellExecution h c started =
        if c = none ∨ c = some 0 then ⟨started, none⟩ else triggerRandomRoast h started) ∧
    (step started (.terminalEnd linuxHost (some 1))).execLog = ["aplay \"/ext/media/a.mp3\""] ∧
    (run started [.toggleClick]).isMuted = true ∧
    (activate moduleLoad).state = started := by
  refine ⟨by decide, by decide, by decide, by decide, by decide, ?_, by decide, by decide, rfl⟩
  intro h c
  have hm : started.isMuted = false := by decide
  by_cases hc : c = none ∨ c = some 0
  · rw [if_pos hc]
    simp only [onDidEndTerminalShellExecution]
    rw [if_neg]
    rintro ⟨⟨h1, h2⟩, -⟩
    rcases hc with hc | hc
    · exact h1 hc
    · exact h2 hc
  · rw [if_neg hc]
    simp only [onDidEndTerminalShellExecution]
    rw [if_pos]
    exact ⟨⟨fun h1 => hc (Or.inl h1), fun h2 => hc (Or.inr h2)⟩, hm⟩

/-! ## The cooldown -/

theorem triggerRandomRoast_cases (h : Host) (s : ExtState) :
    (triggerRandomRoast h s).state = s ∨
    (s.isCurrentlyPlaying = false ∧
      (triggerRandomRoast h s).state.isCurrentlyPlaying = true ∧
      (triggerRandomRoast h s).state.inFlight = s.inFlight + 1 ∧
      (triggerRandomRoast h s).state.pendingTimers = s.pendingTimers ∧
      (triggerRandomRoast h s).state.isMuted = s.isMuted ∧
      (triggerRandomRoast h s).state.roastButton = s.roastButton) := by
  cases hp : s.isCurrentlyPlaying
  · cases hex : h.existsSync (h.pathJoin h.extensionPath "media")
    · simp [triggerRandomRoast, hp, hex]
    · cases hread : h.readdirSync (h.pathJoin h.extensionPath "media") with
      | error e => simp [triggerRandomRoast, hp, hex, hread]
      | ok entries =>
        by_cases hlen : (entries.filter (fun file => endsWith file ".mp3")).length = 0
        · left
          simp only [triggerRandomRoast, hp, hex, hread, hlen]
          simp
        · cases hsel : (entries.filter (fun file => endsWith file ".mp3"))[mathFloorMul h.random
              (entries.filter (fun file => endsWith file ".mp3")).length]? with
          | none =>
            left
            simp only [triggerRandomRoast, hp, hex, hread, hlen, hsel]
            simp
          | some name =>
            right
            simp only [triggerRandomRoast, hp, hex, hread, hlen, hsel, exec]
            simp
  · simp [triggerRandomRoast, hp]

theorem listener_cases (h : Host) (c : Option Int) (s : ExtState) :
    (onDidEndTerminalShellExecution h c s).state = s ∨
    (s.isCurrentlyPlaying = false ∧
      (onDidEndTerminalShellExecution h c s).state.isCurrentlyPlaying = true ∧
      (onDidEndTerminalShellExecution h c s).state.inFlight = s.inFlight + 1 ∧
      (onDidEndTerminalShellExecution h c s).state.pendingTimers = s.pendingTimers ∧
      (onDidEndTerminalShellExecution h c s).state.isMuted = s.isMuted ∧
      (onDidEndTerminalShellExecution h c s).state.roastButton = s.roastButton) := by
  simp only [onDidEndTerminalShellExecution]
  split_ifs
  · exact triggerRandomRoast_cases h s
  · exact Or.inl rfl

theorem toggleMute_keeps_cooldown (s : ExtState) :
    (toggleMute s).state.isCurrentlyPlaying = s.isCurrentlyPlaying ∧
    (toggleMute s).state.inFlight = s.inFlight ∧
    (toggleMute s).state.pendingTimers = s.pendingTimers ∧
    (toggleMute s).state.execLog = s.execLog := by
  cases hb : s.roastButton <;> cases hmute : s.isMuted <;>
    simp [toggleMute, updateUIAppearance, hb, hmute]

theorem step_cooldown (s : ExtState) (e : Event)
    (hone : s.inFlight + s.pendingTimers ≤ 1)
    (hplay : 0 < s.inFlight + s.pendingTimers → s.isCurrentlyPlaying = true) :
    (step s e).inFlight + (step s e).pendingTimers ≤ 1 ∧
    (0 < (step s e).inFlight + (step s e).pendingTimers →
      (step s e).isCurrentlyPlaying = true) := by
  cases e with
  | terminalEnd h c =>
    simp only [step]
    split_ifs
    · rcases listener_cases h c s with hsame | ⟨hidle, hset, hfly, htimers, -, -⟩
      · rw [hsame]; exact ⟨hone, hplay⟩
      · have hzero : s.inFlight + s.pendingTimers = 0 := by
          by_contra hne
          have := hplay (by omega)
          simp [hidle] at this
        rw [hset, hfly, htimers]
        exact ⟨by omega, fun _ => rfl⟩
    · exact ⟨hone, hplay⟩
  | toggleClick =>
    simp only [step]
    split_ifs
    · obtain ⟨h1, h2, h3, -⟩ := toggleMute_keeps_cooldown s
      rw [h1, h2, h3]; exact ⟨hone, hplay⟩
    · exact ⟨hone, hplay⟩
  | processDone error =>
    simp only [step]
    split_ifs with hpos
    · have hp := hplay (by omega)
      cases error <;> simp [execCallback, hp] <;> omega
    · exact ⟨hone, hplay⟩
  | timerFire =>
    simp only [step]
    split_ifs with hpos
    · simp [cooldownTimeout]
      omega
    · exact ⟨hone, hplay⟩

theorem run_cooldown (events : List Event) (s : ExtState)
    (hone : s.inFlight + s.pendingTimers ≤ 1)
    (hplay : 0 < s.inFlight + s.pendingTimers → s.isCurrentlyPlaying = true) :
    (run s events).inFlight + (run s events).pendingTimers ≤ 1 ∧
    (0 < (run s events).inFlight + (run s events).pendingTimers →
      (run s events).isCurrentlyPlaying = true) := by
  induction events generalizing s with
  | nil => exact ⟨hone, hplay⟩
  | cons e rest ih =>
    obtain ⟨h1, h2⟩ := step_cooldown s e hone hplay
    exact ih (step s e) h1 h2

theorem reachable_cooldown (s : ExtState) (hs : Reachable s) :
    s.inFlight + s.pendingTimers ≤ 1 ∧
    (0 < s.inFlight + s.pendingTimers → s.isCurrentlyPlaying = true) := by
  obtain ⟨events, rfl⟩ := hs
  exact run_cooldown events started (by decide) (by decide)

theorem step_terminalEnd_playing (h : Host) (c : Option Int) (s : ExtState)
    (hp : s.isCurrentlyPlaying = true) : step s (.terminalEnd h c) = s := by
  simp only [step, listener_playing h c s hp]
  split_ifs <;> rfl

theorem step_terminalEnd_spawn (h : Host) (c : Option Int) (s : ExtState)
    (hlog : (step s (.terminalEnd h c)).execLog ≠ s.execLog) :
    s.isCurrentlyPlaying = false ∧
    (step s (.terminalEnd h c)).isCurrentlyPlaying = true ∧
    (step s (.terminalEnd h c)).inFlight = s.inFlight + 1 ∧
    (step s (.terminalEnd h c)).pendingTimers = s.pendingTimers := by
  simp only [step] at hlog ⊢
  split_ifs at hlog ⊢
  · rcases listener_cases h c s with hsame | ⟨hidle, hset, hfly, htimers, -, -⟩
    · rw [hsame] at hlog
      exact absurd rfl hlog
    · exact ⟨hidle, hset, hfly, htimers⟩
  · exact absurd rfl hlog

/-- C4: in every state reachable from the activated extension by terminal-end
events, toggle clicks, completion callbacks and timer firings, at most one
spawned process is waiting for its completion callback, and whenever one is
waiting `isCurrentlyPlaying` is true. -/
theorem C4_at_most_one_in_flight (s : ExtState) (hs : Reachable s) :
    s.inFlight ≤ 1 ∧ (0 < s.inFlight → s.isCurrentlyPlaying = true) := by
  obtain ⟨hone, hplay⟩ := reachable_cooldown s hs
  exact ⟨by omega, fun hpos => hplay (by omega)⟩

theorem C4_at_most_one_in_flight_witness :
    (Reachable (run started
        [.terminalEnd linuxHost (some 2), .toggleClick, .terminalEnd linuxHost (some 2)]) ∧
      (run started
        [.terminalEnd linuxHost (some 2), .toggleClick, .terminalEnd linuxHost (some 2)]).inFlight
        = 1) ∧
    ((run started
        [.terminalEnd linuxHost (some 2), .toggleClick, .terminalEnd linuxHost (some 2)]).inFlight
        ≤ 1 ∧
      (0 < (run started
        [.terminalEnd linuxHost (some 2), .toggleClick,
          .terminalEnd linuxHost (some 2)]).inFlight →
        (run started
          [.terminalEnd linuxHost (some 2), .toggleClick,
            .terminalEnd linuxHost (some 2)]).isCurrentlyPlaying = true)) :=
  ⟨⟨⟨_, rfl⟩, by decide⟩, C4_at_most_one_in_flight _ ⟨_, rfl⟩⟩

/-- C5, as stated, fails: the spawn starts no timer (none is pending after it,
and a timer event right after the spawn leaves `isCurrentlyPlaying` true); the
timer is started by the completion callback.  So no reachable state has a
process waiting for its callback while `isCurrentlyPlaying` is false, and in no
such state does a terminal-end event spawn a second player. -/
theorem C5_counterexample_no_overlap :
    (run started [.terminalEnd linuxHost (some 1)]).inFlight = 1 ∧
    (run started [.terminalEnd linuxHost (some 1)]).pendingTimers = 0 ∧
    (run started [.terminalEnd linuxHost (some 1), .timerFire]).isCurrentlyPlaying = true ∧
    (run started [.terminalEnd linuxHost (some 1), .timerFire,
      .terminalEnd linuxHost (some 1)]).execLog.length = 1 ∧
    ¬ ∃ (events : List Event) (h : Host) (c : Option Int),
      0 < (run started events).inFlight ∧
      ((run started events).isCurrentlyPlaying = false ∨
        (step (run started events) (.terminalEnd h c)).execLog ≠ (run started events).execLog) := by
  refine ⟨by decide, by decide, by decide, by decide, ?_⟩
  rintro ⟨events, h, c, hpos, hbad⟩
  have hp : (run started events).isCurrentlyPlaying = true :=
    (reachable_cooldown _ ⟨events, rfl⟩).2 (by omega)
  rcases hbad with hidle | hlog
  · rw [hp] at hidle
    exact Bool.noConfusion hidle
  · rw [step_terminalEnd_playing h c _ hp] at hlog
    exact hlog rfl

/-- C5, amended: in every reachable state, a terminal-end event that spawns a
player finds no process and no timer outstanding, sets `isCurrentlyPlaying` and
starts no timer; while the spawned process has not completed the flag stays
true, a further terminal-end event and a timer event change nothing, and the
completion callback (with or without error) is what starts the timer, whose
firing clears the flag. -/
theorem C5_cooldown_runs_from_completion (s : ExtState) (hs : Reachable s) (h : Host)
    (c : Option Int) (error : Option String) :
    ((step s (.terminalEnd h c)).execLog ≠ s.execLog →
      s.inFlight = 0 ∧ s.pendingTimers = 0 ∧
      (step s (.terminalEnd h c)).isCurrentlyPlaying = true ∧
      (step s (.terminalEnd h c)).inFlight = 1 ∧
      (step s (.terminalEnd h c)).pendingTimers = 0) ∧
    (0 < s.inFlight →
      s.isCurrentlyPlaying = true ∧ s.pendingTimers = 0 ∧
      step s (.terminalEnd h c) = s ∧
      step s .timerFire = s ∧
      (step s (.processDone error)).isCurrentlyPlaying = true ∧
      (step s (.processDone error)).inFlight = 0 ∧
      (step s (.processDone error)).pendingTimers = 1 ∧
      (run s [.processDone error, .timerFire]).isCurrentlyPlaying = false) := by
  obtain ⟨hone, hplay⟩ := reachable_cooldown s hs
  constructor
  · intro hlog
    obtain ⟨hidle, hset, hfly, htimers⟩ := step_terminalEnd_spawn h c s hlog
    have hzero : s.inFlight + s.pendingTimers = 0 := by
      by_contra hne
      have := hplay (by omega)
      simp [hidle] at this
    refine ⟨by omega, by omega, hset, ?_, ?_⟩
    · rw [hfly]; omega
    · rw [htimers]; omega
  · intro hpos
    have hp : s.isCurrentlyPlaying = true := hplay (by omega)
    have ht : s.pendingTimers = 0 := by omega
    have hfly : s.inFlight = 1 := by omega
    refine ⟨hp, ht, step_terminalEnd_playing h c s hp, ?_, ?_, ?_, ?_, ?_⟩
    · simp [step, ht]
    · cases error <;> simp [step, execCallback, hfly, hp]
    · cases error <;> simp [step, execCallback, hfly]
    · cases error <;> simp [step, execCallback, hfly, ht]
    · cases error <;> simp [run, step, execCallback, cooldownTimeout, hfly]

theorem C5_cooldown_runs_from_completion_witness :
    Reachable (run started [.terminalEnd linuxHost (some 3)]) ∧
    0 < (run started [.terminalEnd linuxHost (some 3)]).inFlight ∧
    (step started (.terminalEnd linuxHost (some 3))).execLog ≠ started.execLog ∧
    (run (run started [.terminalEnd linuxHost (some 3)])
      [.processDone (some "ENOENT"), .timerFire]).isCurrentlyPlaying = false :=
  ⟨⟨_, rfl⟩, by decide, by decide,
    ((C5_cooldown_runs_from_completion (run started [.terminalEnd linuxHost (some 3)]) ⟨_, rfl⟩
      linuxHost (some 3) (some "ENOENT")).2 (by decide)).2.2.2.2.2.2.2⟩

theorem run_button (events : List Event) (s0 : ExtState)
    (hstart : ∃ b, s0.roastButton = some b) :
    ∃ b, (run s0 events).roastButton = some b := by
  induction events generalizing s0 with
  | nil => exact hstart
  | cons e rest ih =>
    apply ih (step s0 e)
    obtain ⟨b, hb⟩ := hstart
    cases e with
    | terminalEnd h c =>
      simp only [step]
      split_ifs
      · rcases listener_cases h c s0 with hsame | ⟨-, -, -, -, -, hbtn⟩
        · rw [hsame]; exact ⟨b, hb⟩
        · rw [hbtn]; exact ⟨b, hb⟩
      · exact ⟨b, hb⟩
    | toggleClick =>
      simp only [step]
      split_ifs
      · cases hmute : s0.isMuted <;> simp [toggleMute, updateUIAppearance, hb, hmute]
      · exact ⟨b, hb⟩
    | processDone error =>
      simp only [step]
      split_ifs
      · cases error <;> simp [execCallback, hb]
      · exact ⟨b, hb⟩
    | timerFire =>
      simp only [step]
      split_ifs
      · simp [cooldownTimeout, hb]
      · exact ⟨b, hb⟩

theorem reachable_button (s : ExtState) (hs : Reachable s) :
    ∃ b, s.roastButton = some b := by
  obtain ⟨events, rfl⟩ := hs
  exact run_button events started
    ⟨{ alignment := "Right", priority := 100, command := some "terminal-roast.toggleMute",
        text := "$(megaphone) Roasting", tooltip := "Click to silence the roasts",
        color := "#ffcc00", visible := true }, by decide⟩

theorem mathFloorMul_rounds :
    mathFloorMul ⟨5404319552844595, 53⟩ 5 = 3 ∧ 5404319552844595 * 5 / 2 ^ 53 = 2 := by
  decide

end TerminalRoast
